import Mathlib

/-!
Shallow embedding of the user-click prediction backend
(`backend/app/store.py`, `graph.py`, `predictor.py`, `main.py`,
`recorder/sanitize.py`) together with proofs of the specified properties.

Python dictionaries are embedded as total functions with an explicit
default (for counters) or as `Option`-valued functions (for tables whose
absent keys matter); dictionary update is pointwise function update.
Machine integers are `Int`/`Nat`; timestamps are `Int`.
-/

namespace UCP

/-- Pointwise update of a function, the embedding of `d[k] = v` on a dict. -/
def upd {α β : Type} [DecidableEq α] (f : α → β) (a : α) (b : β) : α → β :=
  fun x => if x = a then b else f x

/-- `ActionKind` from `schemas.py`. -/
inductive Kind where
  | CLICK
  | SHORTCUT
  | KEYBOARD
  | MOUSE
  | NAV
  | TAB
  | DOM
  | STATE
  | OTHER
  deriving DecidableEq, Repr

/-- The literal string of a kind, as interpolated by the Python f-strings. -/
def Kind.toStr : Kind → String
  | .CLICK => "CLICK"
  | .SHORTCUT => "SHORTCUT"
  | .KEYBOARD => "KEYBOARD"
  | .MOUSE => "MOUSE"
  | .NAV => "NAV"
  | .TAB => "TAB"
  | .DOM => "DOM"
  | .STATE => "STATE"
  | .OTHER => "OTHER"

/-- `WORKFLOW_KINDS = {"CLICK", "SHORTCUT", "NAV"}` and `is_workflow_kind`
from `store.py`. -/
def is_workflow_kind (k : Kind) : Bool :=
  match k with
  | .CLICK => true
  | .SHORTCUT => true
  | .NAV => true
  | _ => false

/-- The open, kind-dependent payload mapping of events and actions.  Every key
read anywhere in `main.py` is a field; `none` embeds an absent key, so
`payload.get(k)` is the field itself and `payload.get(k) or x` is `getD`
composed with the Python truthiness test. -/
structure Payload where
  selector : Option String := none
  tag : Option String := none
  ariaLabel : Option String := none
  testid : Option String := none
  id : Option String := none
  combo : Option String := none
  key : Option String := none
  url : Option String := none
  «to» : Option String := none
  added : Option String := none
  removed : Option String := none
  attrs : Option String := none
  reason : Option String := none
  sig : Option String := none
  testids : Option (List String) := none
  n : Option Nat := none
  deriving DecidableEq, Repr

/-- Python truthiness of an optional string: `None` and `""` are falsy. -/
def truthy (o : Option String) : Bool :=
  match o with
  | none => false
  | some s => !s.isEmpty

/-- `Action` from `schemas.py` (the payload dict typed as `Payload`). -/
structure Action where
  id : String
  ts : Int
  kind : Kind
  url : String := ""
  host : String := ""
  path : String := ""
  label : String := ""
  payload : Payload := {}
  deriving DecidableEq, Repr

/-- `RawEvent` from `schemas.py` (fields the core reads). -/
structure RawEvent where
  v : Int := 1
  ts : Int
  source : String := "injected"
  type : String
  url : String := ""
  title : Option String := none
  payload : Payload := {}
  deriving DecidableEq, Repr

/-- `EdgeStat` from `graph.py`: a count and the ordered latency samples. -/
structure EdgeStat where
  count : Nat := 0
  dts : List Int := []
  deriving DecidableEq, Repr

/-- `GraphState` from `graph.py`.  `node_counts.get(i, 0)` is the total
function `node_counts`; membership of `node_meta`/`edges` is `Option`. -/
structure GraphState where
  node_counts : String → Nat
  node_meta : String → Option (String × Kind)
  edges : String × String → Option EdgeStat

/-- The empty `GraphState()`. -/
def GraphState.init : GraphState :=
  { node_counts := fun _ => 0
    node_meta := fun _ => none
    edges := fun _ => none }

/-- `GraphState.touch_node` (graph.py lines 19-22). -/
def GraphState.touch_node (g : GraphState) (node_id label : String) (kind : Kind) :
    GraphState :=
  { g with
    node_counts := upd g.node_counts node_id (g.node_counts node_id + 1)
    node_meta :=
      if (g.node_meta node_id).isNone then
        upd g.node_meta node_id (some (label, kind))
      else g.node_meta }

/-- `GraphState.add_edge` (graph.py lines 24-31): create the stat on first
use, increment the count, append `max(0, dt)`. -/
def GraphState.add_edge (g : GraphState) (frm tgt : String) (dt : Int) : GraphState :=
  let st := (g.edges (frm, tgt)).getD {}
  { g with
    edges := upd g.edges (frm, tgt) (some { count := st.count + 1, dts := st.dts ++ [max 0 dt] }) }

/-- The edge count of an ordered pair, 0 when the edge is absent. -/
def edgeCount (g : GraphState) (a b : String) : Nat :=
  match g.edges (a, b) with
  | none => 0
  | some st => st.count

/-- The latency samples of an ordered pair, `[]` when the edge is absent. -/
def edgeDts (g : GraphState) (a b : String) : List Int :=
  match g.edges (a, b) with
  | none => []
  | some st => st.dts

/-- `int(statistics.median(dts))`: sort, take the middle element for odd
length, else the truncated mean of the two middle elements.  `Int.tdiv`
truncates toward zero exactly as Python's `int()` on the float quotient. -/
def pyMedian (l : List Int) : Int :=
  let s := l.insertionSort (· ≤ ·)
  let n := s.length
  if n % 2 = 1 then s.getD (n / 2) 0
  else Int.tdiv (s.getD (n / 2 - 1) 0 + s.getD (n / 2) 0) 2

/-- `int(sum(dts) / len(dts))` with the same truncation. -/
def pyAvg (l : List Int) : Int :=
  Int.tdiv l.sum (l.length : Int)

/-- The per-edge statistics computed inside `GraphState.snapshot`
(graph.py lines 46-51): `(median_ms, avg_ms)`, both 0 on no samples. -/
def snapshotEdge (st : EdgeStat) : Int × Int :=
  if st.dts.isEmpty then (0, 0) else (pyMedian st.dts, pyAvg st.dts)

/-- `MarkovPredictor` from `predictor.py`. -/
structure MarkovPredictor where
  transitions : String × String → Nat
  outgoing : String → Nat

/-- The empty `MarkovPredictor()`. -/
def MarkovPredictor.init : MarkovPredictor :=
  { transitions := fun _ => 0, outgoing := fun _ => 0 }

/-- `MarkovPredictor.observe` (predictor.py lines 13-16). -/
def MarkovPredictor.observe (m : MarkovPredictor) (a b : String) : MarkovPredictor :=
  { transitions := upd m.transitions (a, b) (m.transitions (a, b) + 1)
    outgoing := upd m.outgoing a (m.outgoing a + 1) }

/-- `MemoryItem` from `schemas.py` / the values stored by `memory.py`. -/
structure MemItem where
  id : String
  title : String
  text : String
  updated_at : Int
  tags : List String
  deriving DecidableEq, Repr

/-- The data of `MemoryStore` from `memory.py` (its `items` dict). -/
structure MemoryStore where
  items : String → Option MemItem

/-- The empty `MemoryStore()`. -/
def MemoryStore.init : MemoryStore :=
  { items := fun _ => none }

/-- `AppStore` from `store.py`: histories, graph, predictor, memory and the
eight per-session context pointers. -/
structure AppStore where
  max_events : Nat := 20000
  recording : Bool := false
  session_id : Option String := none
  events : List RawEvent := []
  actions : List Action := []
  graph : GraphState := GraphState.init
  predictor : MarkovPredictor := MarkovPredictor.init
  memory : MemoryStore := MemoryStore.init
  last_action_id : Option String := none
  last_action_ts : Option Int := none
  last_workflow_action_id : Option String := none
  last_workflow_action_ts : Option Int := none
  last_state_id : Option String := none
  last_state_ts : Option Int := none
  await_post_state_action_id : Option String := none
  await_post_state_action_ts : Option Int := none

/-- The freshly constructed `AppStore(max_events=20_000)`. -/
def AppStore.init : AppStore := {}

/-- The tail-truncation `xs[-max:]` applied after `append` in
`append_event`/`append_action`. -/
def truncTail {α : Type} (xs : List α) (maxN : Nat) : List α :=
  if xs.length > maxN then xs.drop (xs.length - maxN) else xs

/-- `AppStore.append_event` (store.py lines 68-72). -/
def AppStore.append_event (s : AppStore) (ev : RawEvent) : AppStore :=
  { s with events := truncTail (s.events ++ [ev]) s.max_events }

/-- `AppStore.append_action` (store.py lines 74-127), the session-linker
state machine: always touch the node; a STATE action may resolve the pending
post-state link and becomes the state context; a workflow action records an
edge from the state context (or, failing that, the previous workflow action),
becomes the workflow context and arms the pending slot; every non-STATE
action, workflow or not, updates the raw last-action pointer. -/
def AppStore.append_action (s : AppStore) (act : Action) : AppStore :=
  let s := { s with actions := truncTail (s.actions ++ [act]) s.max_events }
  let s := { s with graph := s.graph.touch_node act.id act.label act.kind }
  if act.kind = Kind.STATE then
    let s :=
      match s.await_post_state_action_id, s.await_post_state_action_ts with
      | some pid, some pts =>
        if act.ts ≥ pts then
          { s with
            graph := s.graph.add_edge pid act.id (act.ts - pts)
            await_post_state_action_id := none
            await_post_state_action_ts := none }
        else s
      | _, _ => s
    { s with
      last_state_id := some act.id
      last_state_ts := some act.ts
      last_action_id := some act.id
      last_action_ts := some act.ts }
  else
    let s :=
      if is_workflow_kind act.kind then
        let s :=
          match s.last_state_id, s.last_state_ts with
          | some sid, some sts =>
            { s with
              graph := s.graph.add_edge sid act.id (act.ts - sts)
              predictor := s.predictor.observe sid act.id }
          | _, _ =>
            match s.last_workflow_action_id, s.last_workflow_action_ts with
            | some wid, some wts =>
              { s with
                graph := s.graph.add_edge wid act.id (act.ts - wts)
                predictor := s.predictor.observe wid act.id }
            | _, _ => s
        { s with
          last_workflow_action_id := some act.id
          last_workflow_action_ts := some act.ts
          await_post_state_action_id := some act.id
          await_post_state_action_ts := some act.ts }
      else s
    { s with
      last_action_id := some act.id
      last_action_ts := some act.ts }

/-- `AppStore.reset_context` (store.py lines 146-156). -/
def AppStore.reset_context (s : AppStore) : AppStore :=
  { s with
    last_action_id := none
    last_action_ts := none
    last_workflow_action_id := none
    last_workflow_action_ts := none
    last_state_id := none
    last_state_ts := none
    await_post_state_action_id := none
    await_post_state_action_ts := none }

/-- `AppStore.clear` (store.py lines 179-193). -/
def AppStore.clear (s : AppStore) : AppStore :=
  { s with
    events := []
    actions := []
    graph := GraphState.init
    predictor := MarkovPredictor.init
    memory := MemoryStore.init
    last_action_id := none
    last_action_ts := none
    last_workflow_action_id := none
    last_workflow_action_ts := none
    last_state_id := none
    last_state_ts := none
    await_post_state_action_id := none
    await_post_state_action_ts := none }

/-- Processing a list of actions in arrival order. -/
def processAll (s : AppStore) (l : List Action) : AppStore :=
  l.foldl AppStore.append_action s

/-- Processing a list of actions from the fresh store. -/
def runActions (l : List Action) : AppStore :=
  processAll AppStore.init l

/-- The node ids of a list of actions. -/
def actionIds (l : List Action) : List String :=
  l.map (·.id)

/-- All potential edge sources held by the session context of `s` satisfy
`Q`; a fresh or reset context satisfies this for every `Q`. -/
def srcOK (Q : String → Prop) (s : AppStore) : Prop :=
  (∀ i, s.last_state_id = some i → Q i) ∧
  (∀ i, s.last_workflow_action_id = some i → Q i) ∧
  (∀ i, s.await_post_state_action_id = some i → Q i)

/-- A regex word character, `[A-Za-z0-9_]` (for `\\b` boundaries). -/
def isWordChar (c : Char) : Bool := c.isAlphanum || c = '_'

/-- A character of the email local part, `[A-Z0-9._%+-]` case-insensitive. -/
def isLocalChar (c : Char) : Bool :=
  c.isAlphanum || c = '.' || c = '_' || c = '%' || c = '+' || c = '-'

/-- A character of the email domain, `[A-Z0-9.-]` case-insensitive. -/
def isDomChar (c : Char) : Bool := c.isAlphanum || c = '.' || c = '-'

/-- The replacement text of `EMAIL_RE.sub`. -/
def redactedEmail : List Char := "[redacted-email]".data

/-- The replacement text of `LONG_NUM_RE.sub`. -/
def redactedNumber : List Char := "[redacted-number]".data

/-- Whether a maximal digit run is a `LONG_NUM_RE` match, `\\b\\d{6,}\\b`:
at least six digits and no adjacent word character on either side. -/
def numRunMatches (prev : Option Char) (run : List Char) (next : Option Char) : Bool :=
  run.length ≥ 6 && !(prev.any isWordChar) && !(next.any isWordChar)

/-- `LONG_NUM_RE.sub("[redacted-number]", s)`: scan the text accumulating the
current maximal digit run (`run`); `prev` is the original character just
before the run (or the scan position when no run is open). -/
def subNumsGo (prev : Option Char) (run : List Char) : List Char → List Char
  | [] => if numRunMatches prev run none then redactedNumber else run
  | c :: rest =>
    if c.isDigit then subNumsGo prev (run ++ [c]) rest
    else
      (if numRunMatches prev run (some c) then redactedNumber else run) ++
        c :: subNumsGo (some c) [] rest

/-- Whether the character following match end `e` inside the domain run
(`after` past its end) fails to be a word character, i.e. `\\b` holds there
(the last matched character is always a TLD letter). -/
def domEndOK (dom : List Char) (after : Option Char) (e : Nat) : Bool :=
  match dom.get? e with
  | some c => !isWordChar c
  | none => !(after.any isWordChar)

/-- Length of the greedy letter run (`[A-Z]{2,}` candidates) from the front. -/
def letterRunLen (l : List Char) : Nat := (l.takeWhile Char.isAlpha).length

/-- Whether a dot at position `k` of the domain run yields a match of
`\\.[A-Z]{2,}\\b` with a nonempty body before it. -/
def dotOK (dom : List Char) (after : Option Char) (k : Nat) : Bool :=
  (dom.get? k == some '.') &&
  (let l := letterRunLen (dom.drop (k + 1))
   decide (l ≥ 2) && domEndOK dom after (k + 1 + l))

/-- Backtracking search for the rightmost usable dot position `k ≥ 1` in the
domain run, mirroring the greedy `[A-Z0-9.-]+` group; returns the match end
within the run. -/
def findDomEnd (dom : List Char) (after : Option Char) : Nat → Option Nat
  | 0 => none
  | k + 1 =>
    if dotOK dom after (k + 1) then some (k + 2 + letterRunLen (dom.drop (k + 2)))
    else findDomEnd dom after k

/-- Try to match `EMAIL_RE` at the start of `l` (`prev` the preceding original
character); on success return the remainder of the text after the match. -/
def tryEmail (prev : Option Char) (l : List Char) : Option (List Char) :=
  match l with
  | [] => none
  | c :: _ =>
    let boundary :=
      match prev with
      | none => isWordChar c
      | some p => isWordChar p != isWordChar c
    if !boundary then none
    else
      let locl := l.takeWhile isLocalChar
      let rest1 := l.dropWhile isLocalChar
      if locl.isEmpty then none
      else
        match rest1 with
        | '@' :: rest2 =>
          let dom := rest2.takeWhile isDomChar
          let rest3 := rest2.dropWhile isDomChar
          match findDomEnd dom rest3.head? (dom.length - 1) with
          | some e => some (dom.drop e ++ rest3)
          | none => none
        | _ => none

/-- `EMAIL_RE.sub("[redacted-email]", s)`: try a match at every position, left
to right, resuming after each replacement.  The fuel starts at the text length
and every step consumes at least one character, so it never runs out; after a
match the previous character is a TLD letter, represented by `'a'`. -/
def subEmailsGo (fuel : Nat) (prev : Option Char) (l : List Char) : List Char :=
  match fuel, l with
  | 0, l => l
  | _ + 1, [] => []
  | fuel + 1, c :: rest =>
    match tryEmail prev (c :: rest) with
    | some rest' => redactedEmail ++ subEmailsGo fuel (some 'a') rest'
    | none => c :: subEmailsGo fuel (some c) rest

/-- `EMAIL_RE.sub` over a whole text. -/
def subEmails (l : List Char) : List Char := subEmailsGo l.length none l

/-- `re.sub(r"\\s+", " ", s)`: each maximal whitespace run becomes one space. -/
def collapseWsGo (inRun : Bool) : List Char → List Char
  | [] => []
  | c :: rest =>
    if c.isWhitespace then
      (if inRun then [] else [' ']) ++ collapseWsGo true rest
    else c :: collapseWsGo false rest

/-- `scrub_text` from `recorder/sanitize.py`: the empty string maps to itself;
otherwise strip, redact emails, redact long numbers, collapse whitespace and
truncate to `max_len` characters. -/
def scrub_text (s : String) (max_len : Nat := 64) : String :=
  if s.isEmpty then ""
  else
    let s1 := s.trim
    let s2 := String.mk (subEmails s1.data)
    let s3 := String.mk (subNumsGo none [] s2.data)
    let s4 := String.mk (collapseWsGo false s3.data)
    String.mk (s4.data.take max_len)

/-- Modelled from the spec: `safe_host`/`safe_path` wrap the standard-library
URL parser (`urllib.parse.urlparse`), an external collaborator whose source is
not part of this repository.  Modelled for the common absolute-URL shape: the
network location is the run of characters after the first `"//"` up to the
next `"/"`, `"?"` or `"#"`, and the path is what follows it up to a query or
fragment. -/
def afterDoubleSlash : List Char → Option (List Char)
  | '/' :: '/' :: rest => some rest
  | _ :: rest => afterDoubleSlash rest
  | [] => none

/-- A character ending the network location. -/
def isNetlocEnd (c : Char) : Bool := c = '/' || c = '?' || c = '#'

/-- A character ending the path. -/
def isPathEnd (c : Char) : Bool := c = '?' || c = '#'

/-- Modelled from the spec: `safe_host` = `urlparse(url).netloc` (see
`afterDoubleSlash`). -/
def safe_host (url : String) : String :=
  match afterDoubleSlash url.data with
  | some rest => String.mk (rest.takeWhile (fun c => !isNetlocEnd c))
  | none => ""

/-- Modelled from the spec: `safe_path` = `urlparse(url).path or "/"` (see
`afterDoubleSlash`). -/
def safe_path (url : String) : String :=
  let pathChars :=
    match afterDoubleSlash url.data with
    | some rest => (rest.dropWhile (fun c => !isNetlocEnd c)).takeWhile (fun c => !isPathEnd c)
    | none => url.data.takeWhile (fun c => !isPathEnd c)
  if pathChars.isEmpty then "/" else String.mk pathChars

/-- Modelled from the spec: `hashlib.sha1(sig.encode()).hexdigest()[:10]`, the
external hashing collaborator, embedded as a deterministic pure function of
the signature string; the development depends only on its determinism, never
on particular digest values. -/
def sha1_hex10 (sig : String) : String :=
  (toString sig.hash).take 10

/-- `sorted(set(xs))` on strings: deduplicate, then sort lexicographically. -/
def sortedDedup (l : List String) : List String :=
  l.dedup.insertionSort (· ≤ ·)

/-- `action_id_for` from `main.py` (lines 40-90): the stable node id used for
graph merging. -/
def action_id_for (kind : Kind) (host path : String) (payload : Payload) : String :=
  match kind with
  | .CLICK =>
    let key :=
      if truthy payload.testid then "testid=" ++ payload.testid.getD ""
      else if truthy payload.ariaLabel then "aria=" ++ payload.ariaLabel.getD ""
      else if truthy payload.id then "id=" ++ payload.id.getD ""
      else "sel=" ++ payload.selector.getD ""
    let key := scrub_text key 160
    "CLICK:" ++ host ++ path ++ ":" ++ key
  | .SHORTCUT =>
    let combo := scrub_text (payload.combo.getD "") 80
    "SHORTCUT:" ++ combo
  | .KEYBOARD =>
    let key := scrub_text (payload.key.getD "") 40
    "KEY:" ++ key
  | .NAV => "NAV:" ++ host ++ path
  | .TAB => "TAB:" ++ host ++ path
  | .DOM => "DOM:" ++ host ++ path
  | .STATE =>
    let sig0 :=
      if truthy payload.sig then payload.sig.getD ""
      else String.intercalate "|" (payload.testids.getD [])
    let sig := scrub_text sig0 500
    let h := if sig.isEmpty then "empty" else sha1_hex10 sig
    "STATE:" ++ host ++ path ++ ":" ++ h
  | k => "OTHER:" ++ host ++ path ++ ":" ++ k.toStr

/-- `label_for_action` from `main.py` (lines 93-125): the cosmetic label. -/
def label_for_action (kind : Kind) (host path : String) (payload : Payload) : String :=
  match kind with
  | .CLICK =>
    let role := scrub_text (payload.tag.getD "") 12
    let a := scrub_text (payload.ariaLabel.getD "")
    let t := scrub_text (payload.testid.getD "")
    let i := scrub_text (payload.id.getD "")
    let bits := [a, t, i].filter (fun b => !b.isEmpty)
    let selector := scrub_text (payload.selector.getD "") 90
    let hint :=
      if !bits.isEmpty then String.intercalate " / " bits
      else if !selector.isEmpty then selector
      else "(unknown element)"
    "Click [" ++ role ++ "] " ++ hint ++ "\n" ++ host ++ path
  | .SHORTCUT =>
    "Shortcut " ++ (match payload.combo with | some c => c | none => "None") ++
      "\n" ++ host ++ path
  | .KEYBOARD =>
    "Keyboard " ++ scrub_text (payload.key.getD "") 40 ++ "\n" ++ host ++ path
  | .NAV => "Navigate\n" ++ host ++ path
  | .TAB => "Tab\n" ++ host ++ path
  | .DOM => "DOM change\n" ++ host ++ path
  | .STATE =>
    let testids := payload.testids.getD []
    let preview :=
      if testids.length > 0 then
        let shown := (testids.take 4).map (fun t => scrub_text t 28)
        let p := String.intercalate ", " shown
        if testids.length > 4 then p ++ " +" ++ toString (testids.length - 4) else p
      else
        let p := scrub_text (payload.sig.getD "") 80
        if p.isEmpty then "(no testids)" else p
    "State\n" ++ preview ++ "\n" ++ host ++ path
  | k => k.toStr ++ "\n" ++ host ++ path

/-- The url fallback chain of `event_to_action`:
`ev.url or ev.payload.get("url") or ev.payload.get("to") or ""`. -/
def resolveUrl (ev : RawEvent) : String :=
  if !ev.url.isEmpty then ev.url
  else if truthy ev.payload.url then ev.payload.url.getD ""
  else if truthy ev.payload.«to» then ev.payload.«to».getD ""
  else ""

/-- The raw testids list of an event, `ev.payload.get("testids") or []`. -/
def rawTestids (ev : RawEvent) : List String :=
  ev.payload.testids.getD []

/-- `event_to_action` from `main.py` (lines 128-187): normalize a raw event
into an `Action`, deriving its kind, payload, id and label. -/
def event_to_action (ev : RawEvent) : Action :=
  let url := resolveUrl ev
  let host := safe_host url
  let path := safe_path url
  let kp : Kind × Payload :=
    if ev.type = "POINTER_DOWN" then
      (.CLICK,
       { selector := ev.payload.selector, tag := ev.payload.tag,
         ariaLabel := ev.payload.ariaLabel, testid := ev.payload.testid,
         id := ev.payload.id })
    else if ev.type = "KEY_SHORTCUT" then (.SHORTCUT, { combo := ev.payload.combo })
    else if ev.type = "KEY_DOWN" then (.KEYBOARD, { key := ev.payload.key })
    else if ev.type = "NAV_COMMITTED" || ev.type = "URL_CHANGED" then
      (.NAV, { url := some url })
    else if ev.type = "TAB_CREATED" || ev.type = "TAB_CLOSED" then
      (.TAB, { url := some url })
    else if ev.type = "DOM_MUTATION" then
      (.DOM, { added := ev.payload.added, removed := ev.payload.removed,
               attrs := ev.payload.attrs })
    else if ev.type = "STATE_SNAPSHOT" then
      let testids := sortedDedup (rawTestids ev)
      let sig := String.intercalate "|" testids
      (.STATE,
       { reason := ev.payload.reason, testids := some testids,
         sig := some (scrub_text sig 500), n := some testids.length })
    else (.OTHER, {})
  { id := action_id_for kp.1 host path kp.2
    ts := ev.ts
    kind := kp.1
    url := url
    host := host
    path := path
    label := label_for_action kp.1 host path kp.2
    payload := kp.2 }

/-- Folding a list of `touch_node` calls over the empty graph. -/
def touchFold (calls : List (String × String × Kind)) : GraphState :=
  calls.foldl (fun g c => g.touch_node c.1 c.2.1 c.2.2) GraphState.init

/-- The STATE id determined by host, path and the normalized testids list
(the only payload fields `action_id_for` reads for STATE). -/
def state_id_of (host path : String) (testids : List String) : String :=
  action_id_for Kind.STATE host path
    { testids := some testids,
      sig := some (scrub_text (String.intercalate "|" testids) 500) }

/-- Sample STATE_SNAPSHOT event with testids `["b","a"]`. -/
def evBA : RawEvent :=
  { ts := 1, type := "STATE_SNAPSHOT", url := "https://h/p",
    payload := { testids := some ["b", "a"] } }

/-- Sample STATE_SNAPSHOT event with testids `["a","b","b"]`. -/
def evABB : RawEvent :=
  { ts := 2, type := "STATE_SNAPSHOT", url := "https://h/p",
    payload := { testids := some ["a", "b", "b"] } }

/-- Sample STATE_SNAPSHOT event with no testids. -/
def evEmpty : RawEvent :=
  { ts := 3, type := "STATE_SNAPSHOT", url := "https://h/p", payload := {} }

/-! ### Helper lemmas about the primitive operations -/

theorem upd_self {α β : Type} [DecidableEq α] (f : α → β) (a : α) (b : β) :
    upd f a b a = b := by
  simp [upd]

theorem upd_other {α β : Type} [DecidableEq α] (f : α → β) (a : α) (b : β)
    (x : α) (h : x ≠ a) : upd f a b x = f x := by
  simp [upd, h]

theorem touch_node_edges (g : GraphState) (i l : String) (k : Kind) :
    (g.touch_node i l k).edges = g.edges := rfl

theorem edgeCount_touch_node (g : GraphState) (i l : String) (k : Kind) (a b : String) :
    edgeCount (g.touch_node i l k) a b = edgeCount g a b := rfl

theorem edgeDts_touch_node (g : GraphState) (i l : String) (k : Kind) (a b : String) :
    edgeDts (g.touch_node i l k) a b = edgeDts g a b := rfl

theorem edgeCount_add_edge (g : GraphState) (frm tgt : String) (dt : Int) (a b : String) :
    edgeCount (g.add_edge frm tgt dt) a b =
      if a = frm ∧ b = tgt then edgeCount g a b + 1 else edgeCount g a b := by
  by_cases h : a = frm ∧ b = tgt
  · obtain ⟨h1, h2⟩ := h
    subst h1; subst h2
    cases hE : g.edges (a, b) <;>
      simp [GraphState.add_edge, edgeCount, upd, hE]
  · have hne : (a, b) ≠ (frm, tgt) := by
      intro hc
      exact h ⟨congrArg Prod.fst hc, congrArg Prod.snd hc⟩
    simp [GraphState.add_edge, edgeCount, upd, hne, h]

theorem edgeDts_add_edge (g : GraphState) (frm tgt : String) (dt : Int) (a b : String) :
    edgeDts (g.add_edge frm tgt dt) a b =
      if a = frm ∧ b = tgt then edgeDts g a b ++ [max 0 dt] else edgeDts g a b := by
  by_cases h : a = frm ∧ b = tgt
  · obtain ⟨h1, h2⟩ := h
    subst h1; subst h2
    cases hE : g.edges (a, b) <;>
      simp [GraphState.add_edge, edgeDts, upd, hE]
  · have hne : (a, b) ≠ (frm, tgt) := by
      intro hc
      exact h ⟨congrArg Prod.fst hc, congrArg Prod.snd hc⟩
    simp [GraphState.add_edge, edgeDts, upd, hne, h]

theorem observe_transitions (m : MarkovPredictor) (a b p q : String) :
    (m.observe a b).transitions (p, q) =
      if p = a ∧ q = b then m.transitions (p, q) + 1 else m.transitions (p, q) := by
  by_cases h : p = a ∧ q = b
  · obtain ⟨h1, h2⟩ := h
    subst h1; subst h2
    simp [MarkovPredictor.observe, upd]
  · have hne : (p, q) ≠ (a, b) := by
      intro hc
      exact h ⟨congrArg Prod.fst hc, congrArg Prod.snd hc⟩
    simp [MarkovPredictor.observe, upd, hne, h]

theorem workflow_ne_state {k : Kind} (h : is_workflow_kind k = true) : k ≠ Kind.STATE := by
  cases k <;> simp_all [is_workflow_kind]

/-! ### Branch characterizations of `append_action` -/

/-- STATE action, pending slot armed, timestamp at or past the pending one:
the deferred link resolves. -/
theorem append_state_resolve (s : AppStore) (act : Action) (pid : String) (pts : Int)
    (hk : act.kind = Kind.STATE) (hid : s.await_post_state_action_id = some pid)
    (hts : s.await_post_state_action_ts = some pts) (hge : pts ≤ act.ts) :
    s.append_action act =
      { s with
        actions := truncTail (s.actions ++ [act]) s.max_events
        graph := (s.graph.touch_node act.id act.label act.kind).add_edge pid act.id (act.ts - pts)
        await_post_state_action_id := none
        await_post_state_action_ts := none
        last_state_id := some act.id
        last_state_ts := some act.ts
        last_action_id := some act.id
        last_action_ts := some act.ts } := by
  simp [AppStore.append_action, hk, hid, hts, hge]

/-- STATE action, pending slot armed, but the snapshot is too early: no
resolution, the pending slot survives, only the state context moves. -/
theorem append_state_early (s : AppStore) (act : Action) (pid : String) (pts : Int)
    (hk : act.kind = Kind.STATE) (hid : s.await_post_state_action_id = some pid)
    (hts : s.await_post_state_action_ts = some pts) (hlt : act.ts < pts) :
    s.append_action act =
      { s with
        actions := truncTail (s.actions ++ [act]) s.max_events
        graph := s.graph.touch_node act.id act.label act.kind
        last_state_id := some act.id
        last_state_ts := some act.ts
        last_action_id := some act.id
        last_action_ts := some act.ts } := by
  have h : ¬ (act.ts ≥ pts) := not_le.mpr hlt
  simp [AppStore.append_action, hk, hid, hts, h]

/-- STATE action with an empty pending slot: only the state context moves. -/
theorem append_state_nopending (s : AppStore) (act : Action)
    (hk : act.kind = Kind.STATE) (hid : s.await_post_state_action_id = none)
    (hts : s.await_post_state_action_ts = none) :
    s.append_action act =
      { s with
        actions := truncTail (s.actions ++ [act]) s.max_events
        graph := s.graph.touch_node act.id act.label act.kind
        last_state_id := some act.id
        last_state_ts := some act.ts
        last_action_id := some act.id
        last_action_ts := some act.ts } := by
  simp [AppStore.append_action, hk, hid, hts]

/-- Workflow action with a state context: the state becomes the parent. -/
theorem append_workflow_state (s : AppStore) (act : Action) (sid : String) (sts : Int)
    (hw : is_workflow_kind act.kind = true)
    (h1 : s.last_state_id = some sid) (h2 : s.last_state_ts = some sts) :
    s.append_action act =
      { s with
        actions := truncTail (s.actions ++ [act]) s.max_events
        graph := (s.graph.touch_node act.id act.label act.kind).add_edge sid act.id (act.ts - sts)
        predictor := s.predictor.observe sid act.id
        last_workflow_action_id := some act.id
        last_workflow_action_ts := some act.ts
        await_post_state_action_id := some act.id
        await_post_state_action_ts := some act.ts
        last_action_id := some act.id
        last_action_ts := some act.ts } := by
  simp [AppStore.append_action, workflow_ne_state hw, hw, h1, h2]

/-- Workflow action without a state context but with a previous workflow
action: the fallback parent. -/
theorem append_workflow_fallback (s : AppStore) (act : Action) (wid : String) (wts : Int)
    (hw : is_workflow_kind act.kind = true)
    (h1 : s.last_state_id = none) (h2 : s.last_state_ts = none)
    (h3 : s.last_workflow_action_id = some wid) (h4 : s.last_workflow_action_ts = some wts) :
    s.append_action act =
      { s with
        actions := truncTail (s.actions ++ [act]) s.max_events
        graph := (s.graph.touch_node act.id act.label act.kind).add_edge wid act.id (act.ts - wts)
        predictor := s.predictor.observe wid act.id
        last_workflow_action_id := some act.id
        last_workflow_action_ts := some act.ts
        await_post_state_action_id := some act.id
        await_post_state_action_ts := some act.ts
        last_action_id := some act.id
        last_action_ts := some act.ts } := by
  simp [AppStore.append_action, workflow_ne_state hw, hw, h1, h2, h3, h4]

/-- Workflow action with no context at all: no edge, pointers armed. -/
theorem append_workflow_noctx (s : AppStore) (act : Action)
    (hw : is_workflow_kind act.kind = true)
    (h1 : s.last_state_id = none) (h2 : s.last_state_ts = none)
    (h3 : s.last_workflow_action_id = none) (h4 : s.last_workflow_action_ts = none) :
    s.append_action act =
      { s with
        actions := truncTail (s.actions ++ [act]) s.max_events
        graph := s.graph.touch_node act.id act.label act.kind
        last_workflow_action_id := some act.id
        last_workflow_action_ts := some act.ts
        await_post_state_action_id := some act.id
        await_post_state_action_ts := some act.ts
        last_action_id := some act.id
        last_action_ts := some act.ts } := by
  simp [AppStore.append_action, workflow_ne_state hw, hw, h1, h2, h3, h4]

/-- Context action (neither STATE nor a workflow kind): the node is touched
and only the raw last-action pointer moves. -/
theorem append_other (s : AppStore) (act : Action)
    (h1 : act.kind ≠ Kind.STATE) (h2 : is_workflow_kind act.kind = false) :
    s.append_action act =
      { s with
        actions := truncTail (s.actions ++ [act]) s.max_events
        graph := s.graph.touch_node act.id act.label act.kind
        last_action_id := some act.id
        last_action_ts := some act.ts } := by
  simp [AppStore.append_action, h1, h2]

/-- Master step characterization: one `append_action` either only touches the
node, or additionally records exactly one edge whose source is one of the
three context pointers and whose target is the new action id, observed by the
predictor or not; and each context pointer either survives, becomes the new
action id, or (the pending slot only) is cleared. -/
theorem append_action_step (s : AppStore) (act : Action) :
    (((s.append_action act).graph = s.graph.touch_node act.id act.label act.kind ∧
      (s.append_action act).predictor = s.predictor) ∨
     ∃ src dt,
       (s.await_post_state_action_id = some src ∨ s.last_state_id = some src ∨
         s.last_workflow_action_id = some src) ∧
       (s.append_action act).graph
         = (s.graph.touch_node act.id act.label act.kind).add_edge src act.id dt ∧
       ((act.kind = Kind.STATE ∧ (s.append_action act).predictor = s.predictor) ∨
        (is_workflow_kind act.kind = true ∧
          (s.append_action act).predictor = s.predictor.observe src act.id))) ∧
    ((s.append_action act).last_state_id = s.last_state_id ∨
      (s.append_action act).last_state_id = some act.id) ∧
    ((s.append_action act).last_workflow_action_id = s.last_workflow_action_id ∨
      (s.append_action act).last_workflow_action_id = some act.id) ∧
    ((s.append_action act).await_post_state_action_id = s.await_post_state_action_id ∨
      (s.append_action act).await_post_state_action_id = some act.id ∨
      (s.append_action act).await_post_state_action_id = none) := by
  by_cases hST : act.kind = Kind.STATE
  · cases hA : s.await_post_state_action_id with
    | none =>
      cases hB : s.await_post_state_action_ts <;>
        · refine ⟨Or.inl ⟨?_, ?_⟩, Or.inr ?_, Or.inl ?_, Or.inl ?_⟩ <;>
            simp [AppStore.append_action, hST, hA, hB]
    | some pid =>
      cases hB : s.await_post_state_action_ts with
      | none =>
        refine ⟨Or.inl ⟨?_, ?_⟩, Or.inr ?_, Or.inl ?_, Or.inl ?_⟩ <;>
          simp [AppStore.append_action, hST, hA, hB]
      | some pts =>
        by_cases hts : act.ts ≥ pts
        · refine ⟨Or.inr ⟨pid, act.ts - pts, Or.inl rfl, ?_, Or.inl ⟨hST, ?_⟩⟩,
            Or.inr ?_, Or.inl ?_, Or.inr (Or.inr ?_)⟩ <;>
            simp [AppStore.append_action, hST, hA, hB, hts]
        · refine ⟨Or.inl ⟨?_, ?_⟩, Or.inr ?_, Or.inl ?_, Or.inl ?_⟩ <;>
            simp [AppStore.append_action, hST, hA, hB, hts]
  · by_cases hw : is_workflow_kind act.kind = true
    · cases hS1 : s.last_state_id with
      | some sid =>
        cases hS2 : s.last_state_ts with
        | some sts =>
          refine ⟨Or.inr ⟨sid, act.ts - sts, Or.inr (Or.inl rfl), ?_, Or.inr ⟨hw, ?_⟩⟩,
            Or.inl ?_, Or.inr ?_, Or.inr (Or.inl ?_)⟩ <;>
            simp [AppStore.append_action, hST, hw, hS1, hS2]
        | none =>
          cases hW1 : s.last_workflow_action_id with
          | some wid =>
            cases hW2 : s.last_workflow_action_ts with
            | some wts =>
              refine ⟨Or.inr ⟨wid, act.ts - wts, Or.inr (Or.inr rfl), ?_, Or.inr ⟨hw, ?_⟩⟩,
                Or.inl ?_, Or.inr ?_, Or.inr (Or.inl ?_)⟩ <;>
                simp [AppStore.append_action, hST, hw, hS1, hS2, hW1, hW2]
            | none =>
              refine ⟨Or.inl ⟨?_, ?_⟩, Or.inl ?_, Or.inr ?_, Or.inr (Or.inl ?_)⟩ <;>
                simp [AppStore.append_action, hST, hw, hS1, hS2, hW1, hW2]
          | none =>
            cases hW2 : s.last_workflow_action_ts <;>
              · refine ⟨Or.inl ⟨?_, ?_⟩, Or.inl ?_, Or.inr ?_, Or.inr (Or.inl ?_)⟩ <;>
                  simp [AppStore.append_action, hST, hw, hS1, hS2, hW1, hW2]
      | none =>
        cases hS2 : s.last_state_ts with
        | some sts =>
          cases hW1 : s.last_workflow_action_id with
          | some wid =>
            cases hW2 : s.last_workflow_action_ts with
            | some wts =>
              refine ⟨Or.inr ⟨wid, act.ts - wts, Or.inr (Or.inr rfl), ?_, Or.inr ⟨hw, ?_⟩⟩,
                Or.inl ?_, Or.inr ?_, Or.inr (Or.inl ?_)⟩ <;>
                simp [AppStore.append_action, hST, hw, hS1, hS2, hW1, hW2]
            | none =>
              refine ⟨Or.inl ⟨?_, ?_⟩, Or.inl ?_, Or.inr ?_, Or.inr (Or.inl ?_)⟩ <;>
                simp [AppStore.append_action, hST, hw, hS1, hS2, hW1, hW2]
          | none =>
            cases hW2 : s.last_workflow_action_ts <;>
              · refine ⟨Or.inl ⟨?_, ?_⟩, Or.inl ?_, Or.inr ?_, Or.inr (Or.inl ?_)⟩ <;>
                  simp [AppStore.append_action, hST, hw, hS1, hS2, hW1, hW2]
        | none =>
          cases hW1 : s.last_workflow_action_id with
          | some wid =>
            cases hW2 : s.last_workflow_action_ts with
            | some wts =>
              refine ⟨Or.inr ⟨wid, act.ts - wts, Or.inr (Or.inr rfl), ?_, Or.inr ⟨hw, ?_⟩⟩,
                Or.inl ?_, Or.inr ?_, Or.inr (Or.inl ?_)⟩ <;>
                simp [AppStore.append_action, hST, hw, hS1, hS2, hW1, hW2]
            | none =>
              refine ⟨Or.inl ⟨?_, ?_⟩, Or.inl ?_, Or.inr ?_, Or.inr (Or.inl ?_)⟩ <;>
                simp [AppStore.append_action, hST, hw, hS1, hS2, hW1, hW2]
          | none =>
            cases hW2 : s.last_workflow_action_ts <;>
              · refine ⟨Or.inl ⟨?_, ?_⟩, Or.inl ?_, Or.inr ?_, Or.inr (Or.inl ?_)⟩ <;>
                  simp [AppStore.append_action, hST, hw, hS1, hS2, hW1, hW2]
    · have hw' : is_workflow_kind act.kind = false := by
        cases h : is_workflow_kind act.kind
        · rfl
        · exact absurd h hw
      rw [append_other s act hST hw']
      exact ⟨Or.inl ⟨rfl, rfl⟩, Or.inl rfl, Or.inl rfl, Or.inl rfl⟩

/-! ### Claim theorems -/

/-- C10: `reset_context` clears exactly the eight session-context pointer
fields and leaves everything else in the store unchanged (graph node counts,
node metadata and edge statistics, predictor transition counts, events and
actions histories, memory, recording flag, session id, limit); only `clear`
replaces the graph, predictor and memory with empty ones and empties the
histories (while itself not touching the recording flag, session id or
limit). -/
theorem reset_clear_frame (s : AppStore) :
    (s.reset_context.graph = s.graph ∧
     s.reset_context.predictor = s.predictor ∧
     s.reset_context.memory = s.memory ∧
     s.reset_context.events = s.events ∧
     s.reset_context.actions = s.actions ∧
     s.reset_context.recording = s.recording ∧
     s.reset_context.session_id = s.session_id ∧
     s.reset_context.max_events = s.max_events) ∧
    (s.reset_context.last_action_id = none ∧
     s.reset_context.last_action_ts = none ∧
     s.reset_context.last_workflow_action_id = none ∧
     s.reset_context.last_workflow_action_ts = none ∧
     s.reset_context.last_state_id = none ∧
     s.reset_context.last_state_ts = none ∧
     s.reset_context.await_post_state_action_id = none ∧
     s.reset_context.await_post_state_action_ts = none) ∧
    (s.clear.graph = GraphState.init ∧
     s.clear.predictor = MarkovPredictor.init ∧
     s.clear.memory = MemoryStore.init ∧
     s.clear.events = [] ∧
     s.clear.actions = [] ∧
     s.clear.recording = s.recording ∧
     s.clear.session_id = s.session_id ∧
     s.clear.max_events = s.max_events ∧
     s.clear.last_action_id = none ∧
     s.clear.last_action_ts = none ∧
     s.clear.last_workflow_action_id = none ∧
     s.clear.last_workflow_action_ts = none ∧
     s.clear.last_state_id = none ∧
     s.clear.last_state_ts = none ∧
     s.clear.await_post_state_action_id = none ∧
     s.clear.await_post_state_action_ts = none) :=
  ⟨⟨rfl, rfl, rfl, rfl, rfl, rfl, rfl, rfl⟩,
   ⟨rfl, rfl, rfl, rfl, rfl, rfl, rfl, rfl⟩,
   ⟨rfl, rfl, rfl, rfl, rfl, rfl, rfl, rfl, rfl, rfl, rfl, rfl, rfl, rfl, rfl, rfl⟩⟩

/-- Generalized form of C8 over an arbitrary starting graph. -/
theorem touchFold_go (calls : List (String × String × Kind)) (g : GraphState) (i : String) :
    (calls.foldl (fun g c => g.touch_node c.1 c.2.1 c.2.2) g).node_counts i
        = g.node_counts i + (calls.filter (fun c => c.1 == i)).length ∧
    (calls.foldl (fun g c => g.touch_node c.1 c.2.1 c.2.2) g).node_meta i
        = (match g.node_meta i with
           | some m => some m
           | none => (calls.find? (fun c => c.1 == i)).map (fun c => (c.2.1, c.2.2))) := by
  induction calls generalizing g with
  | nil => cases h : g.node_meta i <;> simp [h]
  | cons c rest ih =>
    obtain ⟨ih1, ih2⟩ := ih (g.touch_node c.1 c.2.1 c.2.2)
    by_cases hc : c.1 = i
    · subst hc
      constructor
      · rw [List.foldl_cons, ih1]
        simp [GraphState.touch_node, upd_self]
        omega
      · rw [List.foldl_cons, ih2]
        cases h : g.node_meta c.1 with
        | none => simp [GraphState.touch_node, h, upd_self]
        | some m => simp [GraphState.touch_node, h, upd_self]
    · have hne : i ≠ c.1 := fun hci => hc hci.symm
      constructor
      · rw [List.foldl_cons, ih1]
        have hcnt : (g.touch_node c.1 c.2.1 c.2.2).node_counts i = g.node_counts i := by
          simp only [GraphState.touch_node]
          exact upd_other _ _ _ _ hne
        rw [hcnt]
        simp [hc]
      · rw [List.foldl_cons, ih2]
        have hmeta : (g.touch_node c.1 c.2.1 c.2.2).node_meta i = g.node_meta i := by
          by_cases hm : (g.node_meta c.1).isNone
          · simp only [GraphState.touch_node, hm, if_true]
            exact upd_other _ _ _ _ hne
          · simp [GraphState.touch_node, hm]
        rw [hmeta]
        simp [hc]

/-- C8: node counting and metadata in `touch_node` are first-writer-wins:
after any sequence of calls over the empty graph, a node id's count is
exactly the number of calls naming it, and its stored label/kind are those of
the first call naming it — later calls with different label or kind never
change them. -/
theorem touch_node_count_meta (calls : List (String × String × Kind)) (i : String) :
    (touchFold calls).node_counts i = (calls.filter (fun c => c.1 == i)).length ∧
    (touchFold calls).node_meta i
      = (calls.find? (fun c => c.1 == i)).map (fun c => (c.2.1, c.2.2)) := by
  obtain ⟨h1, h2⟩ := touchFold_go calls GraphState.init i
  exact ⟨by simpa [GraphState.init] using h1, by simpa [GraphState.init] using h2⟩

/-- C4 counterexample: a DOM action does alter a session-context pointer —
processing `DOM` with id `"d"` at t=5 on the fresh store moves
`last_action_id` from `none` to `some "d"` (store.py lines 125-127 run for
every non-STATE action). -/
theorem context_event_updates_last_action_cex :
    (AppStore.init.append_action { id := "d", ts := 5, kind := Kind.DOM }).last_action_id
      ≠ AppStore.init.last_action_id := by
  decide

/-- C4 as amended: for DOM, TAB and OTHER actions, `append_action` increments
the node's count, creates no edge, changes no graph edge statistics and no
predictor count, and leaves the workflow, state and pending context pointers
unchanged — but it does update the raw last-action pointer to the new action
id and timestamp. -/
theorem context_event_frame (s : AppStore) (act : Action)
    (h : act.kind = Kind.DOM ∨ act.kind = Kind.TAB ∨ act.kind = Kind.OTHER) :
    (s.append_action act).graph.node_counts act.id = s.graph.node_counts act.id + 1 ∧
    (∀ j, j ≠ act.id → (s.append_action act).graph.node_counts j = s.graph.node_counts j) ∧
    (s.append_action act).graph.edges = s.graph.edges ∧
    (s.append_action act).predictor = s.predictor ∧
    (s.append_action act).last_workflow_action_id = s.last_workflow_action_id ∧
    (s.append_action act).last_workflow_action_ts = s.last_workflow_action_ts ∧
    (s.append_action act).last_state_id = s.last_state_id ∧
    (s.append_action act).last_state_ts = s.last_state_ts ∧
    (s.append_action act).await_post_state_action_id = s.await_post_state_action_id ∧
    (s.append_action act).await_post_state_action_ts = s.await_post_state_action_ts ∧
    (s.append_action act).last_action_id = some act.id ∧
    (s.append_action act).last_action_ts = some act.ts := by
  have h1 : act.kind ≠ Kind.STATE := by rcases h with h | h | h <;> simp [h]
  have h2 : is_workflow_kind act.kind = false := by
    rcases h with h | h | h <;> simp [h, is_workflow_kind]
  rw [append_other s act h1 h2]
  refine ⟨?_, ?_, rfl, rfl, rfl, rfl, rfl, rfl, rfl, rfl, rfl, rfl⟩
  · simp [GraphState.touch_node, upd_self]
  · intro j hj
    simp [GraphState.touch_node, upd_other _ _ _ _ hj]

/-- Witness for the amended C4 at a concrete input. -/
theorem context_event_frame_witness :
    ((AppStore.init.append_action { id := "d", ts := 5, kind := Kind.DOM }).await_post_state_action_id
        = AppStore.init.await_post_state_action_id) ∧
    ((AppStore.init.append_action { id := "d", ts := 5, kind := Kind.DOM }).last_action_id
        = some "d") := by
  obtain ⟨-, -, -, -, -, -, -, -, h9, -, h11, -⟩ :=
    context_event_frame AppStore.init { id := "d", ts := 5, kind := Kind.DOM } (Or.inl rfl)
  exact ⟨h9, h11⟩

/-- Every workflow action arms the pending post-state slot with its own id
and timestamp, whatever the context was. -/
theorem append_workflow_await (s : AppStore) (act : Action)
    (hw : is_workflow_kind act.kind = true) :
    (s.append_action act).await_post_state_action_id = some act.id ∧
    (s.append_action act).await_post_state_action_ts = some act.ts := by
  have hst := workflow_ne_state hw
  constructor <;> simp [AppStore.append_action, hst, hw]

/-- C1: deferred pairing.  After a workflow action `w` arms the pending slot
with `w.id`/`w.ts`, the first STATE action `st` with `st.ts ≥ w.ts` records
exactly one new edge `w.id → st.id` whose appended latency sample is the
timestamp difference, and clears the slot; a further STATE action with no
intervening workflow action creates no edge at all; and (last conjunct) a
STATE action arriving strictly before the pending timestamp resolves
nothing — the pending slot and all edge counts survive — while it still
updates the state context. -/
theorem deferred_pairing_policy (s : AppStore) (w st st2 : Action)
    (hw : is_workflow_kind w.kind = true)
    (h1 : st.kind = Kind.STATE) (h2 : st2.kind = Kind.STATE)
    (hts : w.ts ≤ st.ts) :
    ((s.append_action w).await_post_state_action_id = some w.id ∧
     (s.append_action w).await_post_state_action_ts = some w.ts) ∧
    (edgeCount ((s.append_action w).append_action st).graph w.id st.id
        = edgeCount (s.append_action w).graph w.id st.id + 1 ∧
     edgeDts ((s.append_action w).append_action st).graph w.id st.id
        = edgeDts (s.append_action w).graph w.id st.id ++ [st.ts - w.ts] ∧
     (∀ a b, ¬(a = w.id ∧ b = st.id) →
        edgeCount ((s.append_action w).append_action st).graph a b
          = edgeCount (s.append_action w).graph a b) ∧
     ((s.append_action w).append_action st).await_post_state_action_id = none ∧
     ((s.append_action w).append_action st).await_post_state_action_ts = none) ∧
    (∀ a b, edgeCount (((s.append_action w).append_action st).append_action st2).graph a b
        = edgeCount ((s.append_action w).append_action st).graph a b) ∧
    (∀ (t : AppStore) (u : Action) (pid : String) (pts : Int),
       u.kind = Kind.STATE → t.await_post_state_action_id = some pid →
       t.await_post_state_action_ts = some pts → u.ts < pts →
       (t.append_action u).await_post_state_action_id = some pid ∧
       (t.append_action u).await_post_state_action_ts = some pts ∧
       (∀ a b, edgeCount (t.append_action u).graph a b = edgeCount t.graph a b) ∧
       (t.append_action u).last_state_id = some u.id ∧
       (t.append_action u).last_state_ts = some u.ts) := by
  obtain ⟨ha1, ha2⟩ := append_workflow_await s w hw
  have hresolve := append_state_resolve (s.append_action w) st w.id w.ts h1 ha1 ha2 hts
  have hmax : max 0 (st.ts - w.ts) = st.ts - w.ts :=
    max_eq_right (sub_nonneg.mpr hts)
  refine ⟨⟨ha1, ha2⟩, ⟨?_, ?_, ?_, ?_, ?_⟩, ?_, ?_⟩
  · rw [hresolve]
    have := edgeCount_add_edge ((s.append_action w).graph.touch_node st.id st.label st.kind)
      w.id st.id (st.ts - w.ts) w.id st.id
    simp only [and_self, if_pos] at this
    rw [this, edgeCount_touch_node]
  · rw [hresolve]
    have := edgeDts_add_edge ((s.append_action w).graph.touch_node st.id st.label st.kind)
      w.id st.id (st.ts - w.ts) w.id st.id
    simp only [and_self, if_pos] at this
    rw [this, edgeDts_touch_node, hmax]
  · intro a b hab
    rw [hresolve]
    have := edgeCount_add_edge ((s.append_action w).graph.touch_node st.id st.label st.kind)
      w.id st.id (st.ts - w.ts) a b
    rw [if_neg hab] at this
    rw [this, edgeCount_touch_node]
  · rw [hresolve]
  · rw [hresolve]
  · intro a b
    have hnp1 : ((s.append_action w).append_action st).await_post_state_action_id = none := by
      rw [hresolve]
    have hnp2 : ((s.append_action w).append_action st).await_post_state_action_ts = none := by
      rw [hresolve]
    rw [append_state_nopending ((s.append_action w).append_action st) st2 h2 hnp1 hnp2]
    exact edgeCount_touch_node _ _ _ _ _ _
  · intro t u pid pts hu hp1 hp2 hlt
    rw [append_state_early t u pid pts hu hp1 hp2 hlt]
    exact ⟨hp1, hp2, fun a b => edgeCount_touch_node _ _ _ _ _ _, rfl, rfl⟩

/-- Witness for C1 on the spec's concrete trace: `CLICK(c1)@0`,
`STATE(s1)@100` yields exactly one `c1 → s1` edge with latency sample 100,
and `STATE(s2)@150` adds no edge from `c1`. -/
theorem deferred_pairing_policy_witness :
    edgeCount ((AppStore.init.append_action { id := "c1", ts := 0, kind := Kind.CLICK }).append_action
        { id := "s1", ts := 100, kind := Kind.STATE }).graph "c1" "s1"
      = edgeCount (AppStore.init.append_action
          { id := "c1", ts := 0, kind := Kind.CLICK }).graph "c1" "s1" + 1 ∧
    edgeDts ((AppStore.init.append_action { id := "c1", ts := 0, kind := Kind.CLICK }).append_action
        { id := "s1", ts := 100, kind := Kind.STATE }).graph "c1" "s1"
      = edgeDts (AppStore.init.append_action
          { id := "c1", ts := 0, kind := Kind.CLICK }).graph "c1" "s1" ++ [(100 : Int)] := by
  have h := deferred_pairing_policy AppStore.init
      { id := "c1", ts := 0, kind := Kind.CLICK }
      { id := "s1", ts := 100, kind := Kind.STATE }
      { id := "s2", ts := 150, kind := Kind.STATE }
      (by decide) rfl rfl (by decide)
  exact ⟨h.2.1.1, h.2.1.2.1⟩

/-- C3: parent preference.  A workflow action arriving with a state context
records its edge and predictor observation from `lastStateId` and from
nothing else; the fallback from the last workflow action fires (second
conjunct) only when no state has been observed; and on the spec's concrete
trace `STATE(s1)@0, CLICK(c1)@10, CLICK(c2)@20` the edges are `s1→c1` and
`s1→c2` with no `c1→c2` edge. -/
theorem parent_preference (s : AppStore) (act : Action) (sid : String) (sts : Int)
    (hw : is_workflow_kind act.kind = true)
    (hsid : s.last_state_id = some sid) (hsts : s.last_state_ts = some sts) :
    (edgeCount (s.append_action act).graph sid act.id
        = edgeCount s.graph sid act.id + 1 ∧
     (s.append_action act).predictor.transitions (sid, act.id)
        = s.predictor.transitions (sid, act.id) + 1 ∧
     (∀ a b, ¬(a = sid ∧ b = act.id) →
        edgeCount (s.append_action act).graph a b = edgeCount s.graph a b) ∧
     (∀ p q, ¬(p = sid ∧ q = act.id) →
        (s.append_action act).predictor.transitions (p, q)
          = s.predictor.transitions (p, q))) ∧
    (∀ (t : AppStore) (u : Action) (wid : String) (wts : Int),
       is_workflow_kind u.kind = true → t.last_state_id = none → t.last_state_ts = none →
       t.last_workflow_action_id = some wid → t.last_workflow_action_ts = some wts →
       edgeCount (t.append_action u).graph wid u.id = edgeCount t.graph wid u.id + 1 ∧
       (t.append_action u).predictor.transitions (wid, u.id)
          = t.predictor.transitions (wid, u.id) + 1) ∧
    (edgeCount (runActions [{ id := "s1", ts := 0, kind := Kind.STATE },
        { id := "c1", ts := 10, kind := Kind.CLICK },
        { id := "c2", ts := 20, kind := Kind.CLICK }]).graph "s1" "c1" = 1 ∧
     edgeCount (runActions [{ id := "s1", ts := 0, kind := Kind.STATE },
        { id := "c1", ts := 10, kind := Kind.CLICK },
        { id := "c2", ts := 20, kind := Kind.CLICK }]).graph "s1" "c2" = 1 ∧
     edgeCount (runActions [{ id := "s1", ts := 0, kind := Kind.STATE },
        { id := "c1", ts := 10, kind := Kind.CLICK },
        { id := "c2", ts := 20, kind := Kind.CLICK }]).graph "c1" "c2" = 0) := by
  have hrec := append_workflow_state s act sid sts hw hsid hsts
  refine ⟨⟨?_, ?_, ?_, ?_⟩, ?_, by decide, by decide, by decide⟩
  · rw [hrec]
    have := edgeCount_add_edge (s.graph.touch_node act.id act.label act.kind)
      sid act.id (act.ts - sts) sid act.id
    simp only [and_self, if_pos] at this
    rw [this, edgeCount_touch_node]
  · rw [hrec]
    have := observe_transitions s.predictor sid act.id sid act.id
    simp only [and_self, if_pos] at this
    rw [this]
  · intro a b hab
    rw [hrec]
    have := edgeCount_add_edge (s.graph.touch_node act.id act.label act.kind)
      sid act.id (act.ts - sts) a b
    rw [if_neg hab] at this
    rw [this, edgeCount_touch_node]
  · intro p q hpq
    rw [hrec]
    have := observe_transitions s.predictor sid act.id p q
    rw [if_neg hpq] at this
    rw [this]
  · intro t u wid wts hw' hn1 hn2 hw1 hw2
    have hrec' := append_workflow_fallback t u wid wts hw' hn1 hn2 hw1 hw2
    constructor
    · rw [hrec']
      have := edgeCount_add_edge (t.graph.touch_node u.id u.label u.kind)
        wid u.id (u.ts - wts) wid u.id
      simp only [and_self, if_pos] at this
      rw [this, edgeCount_touch_node]
    · rw [hrec']
      have := observe_transitions t.predictor wid u.id wid u.id
      simp only [and_self, if_pos] at this
      rw [this]

/-- Witness for C3: a concrete workflow action after a concrete state. -/
theorem parent_preference_witness :
    edgeCount ((AppStore.init.append_action { id := "s1", ts := 0, kind := Kind.STATE }).append_action
        { id := "c1", ts := 10, kind := Kind.CLICK }).graph "s1" "c1"
      = edgeCount (AppStore.init.append_action
          { id := "s1", ts := 0, kind := Kind.STATE }).graph "s1" "c1" + 1 ∧
    ((AppStore.init.append_action { id := "s1", ts := 0, kind := Kind.STATE }).append_action
        { id := "c1", ts := 10, kind := Kind.CLICK }).predictor.transitions ("s1", "c1")
      = (AppStore.init.append_action
          { id := "s1", ts := 0, kind := Kind.STATE }).predictor.transitions ("s1", "c1") + 1 := by
  have h := parent_preference
      (AppStore.init.append_action { id := "s1", ts := 0, kind := Kind.STATE })
      { id := "c1", ts := 10, kind := Kind.CLICK } "s1" 0
      (by decide) (by decide) (by decide)
  exact ⟨h.1.1, h.1.2.1⟩

theorem processAll_cons (s : AppStore) (act : Action) (rest : List Action) :
    processAll s (act :: rest) = processAll (s.append_action act) rest := rfl

/-- Any change of an edge count in one step targets the new action id and
sources one of the three context pointers. -/
theorem append_action_edge_change (s : AppStore) (act : Action) (a b : String)
    (h : edgeCount (s.append_action act).graph a b ≠ edgeCount s.graph a b) :
    b = act.id ∧
    (s.await_post_state_action_id = some a ∨ s.last_state_id = some a ∨
      s.last_workflow_action_id = some a) := by
  obtain ⟨hg, -, -, -⟩ := append_action_step s act
  rcases hg with ⟨hgr, -⟩ | ⟨src, dt, hsrc, hgr, -⟩
  · exact absurd (by rw [hgr]; exact edgeCount_touch_node _ _ _ _ _ _) h
  · rw [hgr] at h
    by_cases hab : a = src ∧ b = act.id
    · exact ⟨hab.2, hab.1 ▸ hsrc⟩
    · exfalso
      apply h
      rw [edgeCount_add_edge, if_neg hab, edgeCount_touch_node]

/-- One step preserves `srcOK` when the new action id satisfies `Q`. -/
theorem append_action_srcOK (Q : String → Prop) (s : AppStore) (act : Action)
    (hs : srcOK Q s) (ha : Q act.id) : srcOK Q (s.append_action act) := by
  obtain ⟨-, hst, hwf, haw⟩ := append_action_step s act
  obtain ⟨q1, q2, q3⟩ := hs
  refine ⟨?_, ?_, ?_⟩
  · intro i hi
    rcases hst with h | h
    · rw [h] at hi; exact q1 i hi
    · rw [h] at hi; injection hi with hi'; exact hi' ▸ ha
  · intro i hi
    rcases hwf with h | h
    · rw [h] at hi; exact q2 i hi
    · rw [h] at hi; injection hi with hi'; exact hi' ▸ ha
  · intro i hi
    rcases haw with h | h | h
    · rw [h] at hi; exact q3 i hi
    · rw [h] at hi; injection hi with hi'; exact hi' ▸ ha
    · rw [h] at hi; exact absurd hi (by simp)

/-- Over a whole action list: the context pointers stay inside `Q` and every
edge-count change has both endpoints in `Q`. -/
theorem processAll_edge_change (l : List Action) (Q : String → Prop) (s : AppStore)
    (hl : ∀ act ∈ l, Q act.id) (hs : srcOK Q s) :
    srcOK Q (processAll s l) ∧
    ∀ a b, edgeCount (processAll s l).graph a b ≠ edgeCount s.graph a b → Q a ∧ Q b := by
  induction l generalizing s with
  | nil => exact ⟨hs, fun a b h => absurd rfl h⟩
  | cons act rest ih =>
    have hact : Q act.id := hl act (List.mem_cons_self act rest)
    have hs' : srcOK Q (s.append_action act) := append_action_srcOK Q s act hs hact
    have hrest : ∀ a ∈ rest, Q a.id := fun a hma => hl a (List.mem_cons_of_mem act hma)
    obtain ⟨hsrc, hedge⟩ := ih (s.append_action act) hrest hs'
    refine ⟨by rw [processAll_cons]; exact hsrc, ?_⟩
    intro a b h
    rw [processAll_cons] at h
    by_cases hmid : edgeCount (processAll (s.append_action act) rest).graph a b
        = edgeCount (s.append_action act).graph a b
    · rw [hmid] at h
      obtain ⟨hb, hsrc'⟩ := append_action_edge_change s act a b h
      refine ⟨?_, hb ▸ hact⟩
      obtain ⟨q1, q2, q3⟩ := hs
      rcases hsrc' with h' | h' | h'
      · exact q3 a h'
      · exact q1 a h'
      · exact q2 a h'
    · exact hedge a b hmid

/-- C2: session isolation.  Starting from the fresh store, if `x` occurs only
among the first session's action ids and `y` only among the second session's
(after a `reset_context`), then the final graph holds no edge between them in
either direction; and `reset_context` empties every session-context
pointer. -/
theorem session_isolation (l1 l2 : List Action) (x y : String)
    (hx1 : x ∈ actionIds l1) (hx2 : x ∉ actionIds l2)
    (hy2 : y ∈ actionIds l2) (hy1 : y ∉ actionIds l1) :
    edgeCount (processAll (runActions l1).reset_context l2).graph x y = 0 ∧
    edgeCount (processAll (runActions l1).reset_context l2).graph y x = 0 ∧
    (∀ t : AppStore,
      t.reset_context.last_action_id = none ∧ t.reset_context.last_action_ts = none ∧
      t.reset_context.last_workflow_action_id = none ∧
      t.reset_context.last_workflow_action_ts = none ∧
      t.reset_context.last_state_id = none ∧ t.reset_context.last_state_ts = none ∧
      t.reset_context.await_post_state_action_id = none ∧
      t.reset_context.await_post_state_action_ts = none) := by
  have hQ1 : ∀ a ∈ l1, a.id ∈ actionIds l1 := fun a hma => List.mem_map_of_mem _ hma
  have hsrc1 : srcOK (· ∈ actionIds l1) AppStore.init := by
    refine ⟨?_, ?_, ?_⟩ <;> · intro i hi; exact absurd hi (by simp [AppStore.init])
  obtain ⟨-, hedge1⟩ := processAll_edge_change l1 (· ∈ actionIds l1) AppStore.init hQ1 hsrc1
  have hzero : ∀ a b : String, a = y ∨ b = y → edgeCount (runActions l1).graph a b = 0 := by
    intro a b hab
    by_contra hne
    have h : edgeCount (processAll AppStore.init l1).graph a b
        ≠ edgeCount AppStore.init.graph a b := hne
    obtain ⟨hQa, hQb⟩ := hedge1 a b h
    rcases hab with rfl | rfl
    · exact hy1 hQa
    · exact hy1 hQb
  have hQ2 : ∀ a ∈ l2, a.id ∈ actionIds l2 := fun a hma => List.mem_map_of_mem _ hma
  have hsrc2 : srcOK (· ∈ actionIds l2) (runActions l1).reset_context := by
    refine ⟨?_, ?_, ?_⟩ <;> · intro i hi; exact absurd hi (by simp [AppStore.reset_context])
  obtain ⟨-, hedge2⟩ :=
    processAll_edge_change l2 (· ∈ actionIds l2) (runActions l1).reset_context hQ2 hsrc2
  have hkeep : ∀ a b : String, a = x ∨ b = x →
      edgeCount (processAll (runActions l1).reset_context l2).graph a b
        = edgeCount (runActions l1).graph a b := by
    intro a b hab
    by_contra hne
    obtain ⟨hQa, hQb⟩ := hedge2 a b hne
    rcases hab with rfl | rfl
    · exact hx2 hQa
    · exact hx2 hQb
  refine ⟨?_, ?_, fun t => ⟨rfl, rfl, rfl, rfl, rfl, rfl, rfl, rfl⟩⟩
  · rw [hkeep x y (Or.inl rfl)]
    exact hzero x y (Or.inr rfl)
  · rw [hkeep y x (Or.inr rfl)]
    exact hzero y x (Or.inl rfl)

/-- Witness for C2 on a concrete two-session trace. -/
theorem session_isolation_witness :
    edgeCount (processAll (runActions [{ id := "a", ts := 0, kind := Kind.CLICK }]).reset_context
        [{ id := "b", ts := 5, kind := Kind.CLICK }]).graph "a" "b" = 0 ∧
    edgeCount (processAll (runActions [{ id := "a", ts := 0, kind := Kind.CLICK }]).reset_context
        [{ id := "b", ts := 5, kind := Kind.CLICK }]).graph "b" "a" = 0 := by
  have h := session_isolation [{ id := "a", ts := 0, kind := Kind.CLICK }]
      [{ id := "b", ts := 5, kind := Kind.CLICK }] "a" "b"
      (by decide) (by decide) (by decide) (by decide)
  exact ⟨h.1, h.2.1⟩

/-- One step preserves the pointwise bound of predictor transition counts by
graph edge counts. -/
theorem append_action_trans_le (s : AppStore) (act : Action)
    (hle : ∀ p q, s.predictor.transitions (p, q) ≤ edgeCount s.graph p q) :
    ∀ p q, (s.append_action act).predictor.transitions (p, q)
        ≤ edgeCount (s.append_action act).graph p q := by
  intro p q
  obtain ⟨hg, -, -, -⟩ := append_action_step s act
  rcases hg with ⟨hgr, hpred⟩ | ⟨src, dt, -, hgr, hpred⟩
  · rw [hgr, hpred, edgeCount_touch_node]
    exact hle p q
  · rw [hgr, edgeCount_add_edge, edgeCount_touch_node]
    rcases hpred with ⟨-, hp⟩ | ⟨-, hp⟩
    · rw [hp]
      split
      · exact le_trans (hle p q) (Nat.le_succ _)
      · exact hle p q
    · rw [hp, observe_transitions]
      by_cases hc : p = src ∧ q = act.id
      · rw [if_pos hc, if_pos hc]
        exact Nat.succ_le_succ (hle p q)
      · rw [if_neg hc, if_neg hc]
        exact hle p q

/-- The bound over a whole action list. -/
theorem processAll_trans_le (l : List Action) (s : AppStore)
    (hle : ∀ p q, s.predictor.transitions (p, q) ≤ edgeCount s.graph p q) :
    ∀ p q, (processAll s l).predictor.transitions (p, q)
        ≤ edgeCount (processAll s l).graph p q := by
  induction l generalizing s with
  | nil => exact hle
  | cons act rest ih =>
    rw [processAll_cons]
    exact ih (s.append_action act) (append_action_trans_le s act hle)

/-- C5 counterexample: after `CLICK(c1)@0`, `STATE(s1)@10` the deferred
pairing has recorded graph edge `c1→s1` (count 1) but the predictor was
never told about it (count 0) — the two counters are not equal. -/
theorem predictor_graph_count_cex :
    (runActions [{ id := "c1", ts := 0, kind := Kind.CLICK },
        { id := "s1", ts := 10, kind := Kind.STATE }]).predictor.transitions ("c1", "s1")
      ≠ edgeCount (runActions [{ id := "c1", ts := 0, kind := Kind.CLICK },
        { id := "s1", ts := 10, kind := Kind.STATE }]).graph "c1" "s1" := by
  decide

/-- C5 as amended: workflow actions drive the predictor and the graph edge
counters in lockstep (both incremented at the same single pair, or both
untouched), but the deferred STATE pairing increments only the graph's edge
count and never the predictor; consequently the predictor count is bounded by
the edge count for every ordered pair after any processed sequence, rather
than equal to it. -/
theorem predictor_graph_count_relation (acts : List Action) (s : AppStore) (act : Action)
    (hle : ∀ p q, s.predictor.transitions (p, q) ≤ edgeCount s.graph p q) :
    (∀ p q, (runActions acts).predictor.transitions (p, q)
        ≤ edgeCount (runActions acts).graph p q) ∧
    (∀ p q, (s.append_action act).predictor.transitions (p, q)
        ≤ edgeCount (s.append_action act).graph p q) ∧
    (is_workflow_kind act.kind = true →
      (∃ src, ∀ p q,
        (s.append_action act).predictor.transitions (p, q)
          = s.predictor.transitions (p, q) + (if p = src ∧ q = act.id then 1 else 0) ∧
        edgeCount (s.append_action act).graph p q
          = edgeCount s.graph p q + (if p = src ∧ q = act.id then 1 else 0)) ∨
      (∀ p q, (s.append_action act).predictor.transitions (p, q)
          = s.predictor.transitions (p, q) ∧
        edgeCount (s.append_action act).graph p q = edgeCount s.graph p q)) ∧
    (act.kind = Kind.STATE → (s.append_action act).predictor = s.predictor) := by
  refine ⟨processAll_trans_le acts AppStore.init (fun p q => le_refl _),
    append_action_trans_le s act hle, ?_, ?_⟩
  · intro hw
    obtain ⟨hg, -, -, -⟩ := append_action_step s act
    rcases hg with ⟨hgr, hpred⟩ | ⟨src, dt, -, hgr, hpred⟩
    · right
      intro p q
      exact ⟨by rw [hpred], by rw [hgr, edgeCount_touch_node]⟩
    · rcases hpred with ⟨hstate, -⟩ | ⟨-, hp⟩
      · exact absurd hstate (workflow_ne_state hw)
      · left
        refine ⟨src, fun p q => ⟨?_, ?_⟩⟩
        · rw [hp, observe_transitions]
          by_cases hc : p = src ∧ q = act.id
          · rw [if_pos hc, if_pos hc]
          · rw [if_neg hc, if_neg hc, Nat.add_zero]
        · rw [hgr, edgeCount_add_edge, edgeCount_touch_node]
          by_cases hc : p = src ∧ q = act.id
          · rw [if_pos hc, if_pos hc]
          · rw [if_neg hc, if_neg hc, Nat.add_zero]
  · intro hst
    obtain ⟨hg, -, -, -⟩ := append_action_step s act
    rcases hg with ⟨-, hpred⟩ | ⟨src, dt, -, -, hpred⟩
    · exact hpred
    · rcases hpred with ⟨-, hp⟩ | ⟨hwf, -⟩
      · exact hp
      · exact absurd hst (workflow_ne_state hwf)

/-- Witness for the amended C5 on the counterexample trace. -/
theorem predictor_graph_count_relation_witness :
    (runActions [{ id := "c1", ts := 0, kind := Kind.CLICK },
        { id := "s1", ts := 10, kind := Kind.STATE }]).predictor.transitions ("c1", "s1")
      ≤ edgeCount (runActions [{ id := "c1", ts := 0, kind := Kind.CLICK },
        { id := "s1", ts := 10, kind := Kind.STATE }]).graph "c1" "s1" := by
  have h := predictor_graph_count_relation
      [{ id := "c1", ts := 0, kind := Kind.CLICK },
       { id := "s1", ts := 10, kind := Kind.STATE }]
      AppStore.init { id := "c2", ts := 20, kind := Kind.CLICK }
      (fun p q => le_refl _)
  exact h.1 "c1" "s1"

theorem getD_nonneg_of_mem (l : List Int) (h : ∀ x ∈ l, 0 ≤ x) (i : Nat) :
    0 ≤ l.getD i 0 := by
  rw [List.getD_eq_getD_get?]
  cases hg : l.get? i with
  | none => simp
  | some x =>
    simp only [Option.getD_some]
    exact h x (List.get?_mem hg)

theorem pyMedian_nonneg (l : List Int) (h : ∀ x ∈ l, 0 ≤ x) : 0 ≤ pyMedian l := by
  have hs : ∀ x ∈ l.insertionSort (· ≤ ·), 0 ≤ x := fun x hx =>
    h x ((List.perm_insertionSort (· ≤ ·) l).mem_iff.mp hx)
  have hg : ∀ i : Nat, 0 ≤ (l.insertionSort (· ≤ ·)).getD i 0 :=
    getD_nonneg_of_mem _ hs
  unfold pyMedian
  by_cases hn : (l.insertionSort (· ≤ ·)).length % 2 = 1
  · simp only [hn, if_true]
    exact hg _
  · simp only [hn, if_false]
    exact Int.tdiv_nonneg (add_nonneg (hg _) (hg _)) (by norm_num)

theorem pyAvg_nonneg (l : List Int) (h : ∀ x ∈ l, 0 ≤ x) : 0 ≤ pyAvg l := by
  unfold pyAvg
  exact Int.tdiv_nonneg (List.sum_nonneg h) (Int.natCast_nonneg _)

/-- Samples stay non-negative across one step. -/
theorem append_action_dts_nonneg (s : AppStore) (act : Action)
    (h : ∀ a b, ∀ x ∈ edgeDts s.graph a b, 0 ≤ x) :
    ∀ a b, ∀ x ∈ edgeDts (s.append_action act).graph a b, 0 ≤ x := by
  intro a b x hx
  obtain ⟨hg, -, -, -⟩ := append_action_step s act
  rcases hg with ⟨hgr, -⟩ | ⟨src, dt, -, hgr, -⟩
  · rw [hgr, edgeDts_touch_node] at hx
    exact h a b x hx
  · rw [hgr, edgeDts_add_edge, edgeDts_touch_node] at hx
    by_cases hc : a = src ∧ b = act.id
    · rw [if_pos hc] at hx
      rcases List.mem_append.mp hx with hx' | hx'
      · exact h a b x hx'
      · rw [List.mem_singleton] at hx'
        subst hx'
        exact le_max_left 0 dt
    · rw [if_neg hc] at hx
      exact h a b x hx

/-- Samples stay non-negative across a whole list. -/
theorem processAll_dts_nonneg (l : List Action) (s : AppStore)
    (h : ∀ a b, ∀ x ∈ edgeDts s.graph a b, 0 ≤ x) :
    ∀ a b, ∀ x ∈ edgeDts (processAll s l).graph a b, 0 ≤ x := by
  induction l generalizing s with
  | nil => exact h
  | cons act rest ih =>
    rw [processAll_cons]
    exact ih (s.append_action act) (append_action_dts_nonneg s act h)

/-- C9: negative latency clamping.  `add_edge` appends `max 0 dt` — a sample
is never dropped, the edge count grows by exactly one, the appended sample is
non-negative, and a `dt` of `-5` contributes the sample `0`; consequently
every sample of every edge reachable from the fresh store is non-negative,
and the snapshot per-edge statistics (`median_ms`, `avg_ms`) computed from
non-negative samples are non-negative integers and are both `0` when the
sample list is empty. -/
theorem latency_clamping_snapshot (acts : List Action) (a b frm tgt : String)
    (g : GraphState) (dt : Int) (st : EdgeStat) (hnn : ∀ x ∈ st.dts, 0 ≤ x) :
    (∀ x ∈ edgeDts (runActions acts).graph a b, 0 ≤ x) ∧
    (edgeDts (g.add_edge frm tgt dt) frm tgt = edgeDts g frm tgt ++ [max 0 dt] ∧
     edgeCount (g.add_edge frm tgt dt) frm tgt = edgeCount g frm tgt + 1 ∧
     0 ≤ max 0 dt ∧
     edgeDts (g.add_edge frm tgt (-5)) frm tgt = edgeDts g frm tgt ++ [0]) ∧
    (0 ≤ (snapshotEdge st).1 ∧ 0 ≤ (snapshotEdge st).2) ∧
    (st.dts = [] → snapshotEdge st = (0, 0)) := by
  refine ⟨?_, ⟨?_, ?_, le_max_left 0 dt, ?_⟩, ?_, ?_⟩
  · exact processAll_dts_nonneg acts AppStore.init
      (fun a' b' x hx => absurd hx (List.not_mem_nil x)) a b
  · rw [edgeDts_add_edge, if_pos ⟨rfl, rfl⟩]
  · rw [edgeCount_add_edge, if_pos ⟨rfl, rfl⟩]
  · rw [edgeDts_add_edge, if_pos ⟨rfl, rfl⟩]
    norm_num
  · by_cases he : st.dts.isEmpty
    · simp [snapshotEdge, he]
    · simp only [snapshotEdge, he, if_false]
      exact ⟨pyMedian_nonneg st.dts hnn, pyAvg_nonneg st.dts hnn⟩
  · intro he
    simp [snapshotEdge, he]

/-- Witness for C9 at concrete inputs: a `-5` delta stores the sample `0`,
and the snapshot statistics of samples `[3]` are non-negative. -/
theorem latency_clamping_snapshot_witness :
    edgeDts (GraphState.init.add_edge "a" "b" (-5)) "a" "b"
      = edgeDts GraphState.init "a" "b" ++ [0] ∧
    0 ≤ (snapshotEdge { count := 1, dts := [3] }).1 := by
  have h := latency_clamping_snapshot [] "a" "b" "a" "b" GraphState.init (-5)
      { count := 1, dts := [3] } (by decide)
  exact ⟨h.2.1.2.2.2, h.2.2.1.1⟩

theorem mk_take_length_le (l : List Char) (n : Nat) : (String.mk (l.take n)).length ≤ n := by
  show (l.take n).length ≤ n
  rw [List.length_take]
  exact min_le_left _ _

theorem truthy_some_of_ne (t : String) (h : t ≠ "") : truthy (some t) = true := by
  have hfalse : t.isEmpty = false := by
    cases hb : t.isEmpty
    · rfl
    · exact absurd ((String.isEmpty_iff t).mp hb) h
  show (!t.isEmpty) = true
  rw [hfalse]
  rfl

/-- The scrubbed text never exceeds the requested length. -/
theorem scrub_text_length (s : String) (n : Nat) : (scrub_text s n).length ≤ n := by
  unfold scrub_text
  by_cases he : s.isEmpty
  · simp [he]
  · simp only [he, Bool.false_eq_true, if_false]
    exact mk_take_length_le _ n

/-- C7: CLICK identity priority.  The id of a CLICK action embeds exactly one
payload key, chosen in the order testid, ariaLabel, element id, selector,
scrubbed at 160 characters, as `CLICK:{host}{path}:{key}` — so the id is
independent of every other payload field, two CLICK payloads with the same
truthy testid yield the same id whatever their other fields, and the scrub
step never produces more than 160 characters. -/
theorem click_identity_priority (host path : String) (pl pl2 : Payload) (t : String)
    (ht : pl.testid = some t) (htne : t ≠ "") :
    action_id_for Kind.CLICK host path pl
      = "CLICK:" ++ host ++ path ++ ":" ++ scrub_text ("testid=" ++ t) 160 ∧
    (pl2.testid = some t →
      action_id_for Kind.CLICK host path pl2 = action_id_for Kind.CLICK host path pl) ∧
    (∀ (q : Payload) (a : String), truthy q.testid = false → q.ariaLabel = some a → a ≠ "" →
      action_id_for Kind.CLICK host path q
        = "CLICK:" ++ host ++ path ++ ":" ++ scrub_text ("aria=" ++ a) 160) ∧
    (∀ (q : Payload) (i : String), truthy q.testid = false → truthy q.ariaLabel = false →
      q.id = some i → i ≠ "" →
      action_id_for Kind.CLICK host path q
        = "CLICK:" ++ host ++ path ++ ":" ++ scrub_text ("id=" ++ i) 160) ∧
    (∀ q : Payload, truthy q.testid = false → truthy q.ariaLabel = false →
      truthy q.id = false →
      action_id_for Kind.CLICK host path q
        = "CLICK:" ++ host ++ path ++ ":" ++ scrub_text ("sel=" ++ q.selector.getD "") 160) ∧
    (∀ (s : String) (n : Nat), (scrub_text s n).length ≤ n) := by
  have htr : truthy pl.testid = true := by
    rw [ht]
    exact truthy_some_of_ne t htne
  refine ⟨?_, ?_, ?_, ?_, ?_, scrub_text_length⟩
  · simp [action_id_for, htr, ht, truthy_some_of_ne t htne]
  · intro h2
    have htr2 : truthy pl2.testid = true := by
      rw [h2]
      exact truthy_some_of_ne t htne
    simp [action_id_for, htr, htr2, ht, h2, truthy_some_of_ne t htne]
  · intro q a hqt hqa hane
    have har : truthy q.ariaLabel = true := by
      rw [hqa]
      exact truthy_some_of_ne a hane
    simp [action_id_for, hqt, har, hqa, truthy_some_of_ne a hane]
  · intro q i hqt hqa hqi hine
    have hir : truthy q.id = true := by
      rw [hqi]
      exact truthy_some_of_ne i hine
    simp [action_id_for, hqt, hqa, hir, hqi, truthy_some_of_ne i hine]
  · intro q hqt hqa hqi
    simp [action_id_for, hqt, hqa, hqi]

/-- Witness for C7: two concrete CLICK payloads sharing a testid but
differing in selector and aria-label map to the same node id. -/
theorem click_identity_priority_witness :
    action_id_for Kind.CLICK "h" "/p" { testid := some "t1", ariaLabel := some "zz" }
      = action_id_for Kind.CLICK "h" "/p" { testid := some "t1", selector := some "div" } := by
  have h := click_identity_priority "h" "/p"
      { testid := some "t1", selector := some "div" }
      { testid := some "t1", ariaLabel := some "zz" } "t1" rfl (by decide)
  exact h.2.1 rfl

/-- Equal membership gives an equal sorted deduplicated list. -/
theorem sortedDedup_eq_of_mem_iff (l1 l2 : List String) (h : ∀ t, t ∈ l1 ↔ t ∈ l2) :
    sortedDedup l1 = sortedDedup l2 := by
  have hperm : List.Perm l1.dedup l2.dedup := by
    apply List.perm_of_nodup_nodup_toFinset_eq (List.nodup_dedup l1) (List.nodup_dedup l2)
    ext a
    simp [List.mem_toFinset, List.mem_dedup, h a]
  unfold sortedDedup
  refine List.eq_of_perm_of_sorted ?_ (List.sorted_insertionSort _ _)
    (List.sorted_insertionSort _ _)
  exact ((List.perm_insertionSort _ _).trans hperm).trans
    (List.perm_insertionSort _ _).symm

/-- The id computed for a STATE_SNAPSHOT event, in closed form: a function of
host, path and the sorted deduplicated testids alone. -/
theorem event_to_action_state_id (ev : RawEvent) (h : ev.type = "STATE_SNAPSHOT") :
    (event_to_action ev).id
      = state_id_of (safe_host (resolveUrl ev)) (safe_path (resolveUrl ev))
          (sortedDedup (rawTestids ev)) := by
  simp [event_to_action, h, state_id_of, action_id_for]

/-- C6: STATE signature determinism.  Two STATE_SNAPSHOT events with equal
host and path whose raw testids lists hold the same set of strings (in any
order, with any duplicates) derive equal action ids, because the testids are
sorted and deduplicated before being joined and hashed; and an event whose
testids list is empty gets the literal suffix `empty` instead of a digest. -/
theorem state_signature_determinism (e1 e2 : RawEvent)
    (h1 : e1.type = "STATE_SNAPSHOT") (h2 : e2.type = "STATE_SNAPSHOT")
    (hh : safe_host (resolveUrl e1) = safe_host (resolveUrl e2))
    (hp : safe_path (resolveUrl e1) = safe_path (resolveUrl e2))
    (hset : ∀ t : String, t ∈ rawTestids e1 ↔ t ∈ rawTestids e2) :
    (event_to_action e1).id = (event_to_action e2).id ∧
    (∀ e : RawEvent, e.type = "STATE_SNAPSHOT" → rawTestids e = [] →
      (event_to_action e).id
        = "STATE:" ++ safe_host (resolveUrl e) ++ safe_path (resolveUrl e) ++ ":" ++ "empty") := by
  constructor
  · rw [event_to_action_state_id e1 h1, event_to_action_state_id e2 h2, hh, hp,
      sortedDedup_eq_of_mem_iff _ _ hset]
  · intro e he hraw
    rw [event_to_action_state_id e he, hraw]
    rfl

/-- Witness for C6: `["b","a"]` and `["a","b","b"]` at the same location give
the same STATE id, and an empty affordance list gives the `empty` suffix. -/
theorem state_signature_determinism_witness :
    (event_to_action evBA).id = (event_to_action evABB).id ∧
    (event_to_action evEmpty).id = "STATE:" ++ "h" ++ "/p" ++ ":" ++ "empty" := by
  have h := state_signature_determinism evBA evABB
      rfl rfl rfl rfl
      (by intro t; constructor <;> · intro ht; simp [evBA, evABB, rawTestids] at ht ⊢; tauto)
  refine ⟨h.1, ?_⟩
  have h2 := h.2 evEmpty rfl rfl
  rw [h2]
  rfl

end UCP
